import Mathlib

/-!
Verification of the iMessage exporter (`imessage_export.py`).

This file gives a shallow embedding of the pure logic of the exporter:
the timestamp normalizer, the filename sanitizer, the reaction
classifier, the attachment materializer with its collision-renaming
loop, and the per-conversation transcript assembler.  File-system
effects are modelled by explicit state: the set of names already
present in the destination attachments directory is a `List String`
threaded through the functions, and the outcomes of the impure
primitives (source-file existence, copy success) are oracles packaged
in an `FS` record.  Machine reals (Python floats) are modelled by `ℚ`;
the calendar rendering done by `datetime.fromtimestamp`/`strftime` is
timezone- and locale-dependent and is abstracted as an opaque-to-us
formatting parameter `fmt : ℚ → String` (no claim concerns the text of
a formatted date, only whether a date is present and which
epoch-seconds value is produced).
-/

/-! ### Character classes (Python `re` and `str` semantics) -/

/-- Model of Python's `str.isspace` / regex `\s` character class for
`str` patterns: ASCII whitespace plus the Unicode whitespace code
points recognised by CPython. -/
def isPySpace (c : Char) : Bool :=
  (0x09 ≤ c.val && c.val ≤ 0x0d) || c.val == 0x20 ||
  (0x1c ≤ c.val && c.val ≤ 0x1f) || c.val == 0x85 || c.val == 0xa0 ||
  c.val == 0x1680 || (0x2000 ≤ c.val && c.val ≤ 0x200a) ||
  c.val == 0x2028 || c.val == 0x2029 || c.val == 0x202f ||
  c.val == 0x205f || c.val == 0x3000

/-- The character class of `re.sub(r'[<>:"/\\|?*\x00-\x1f]', '_', name)`
in `sanitize_filename`. -/
def invalidChar (c : Char) : Bool :=
  c == '<' || c == '>' || c == ':' || c == '"' || c == '/' ||
  c == '\\' || c == '|' || c == '?' || c == '*' || c.val ≤ 0x1f

/-- The character class `[_\s]` of the run-collapsing substitution in
`sanitize_filename`. -/
def isUnd (c : Char) : Bool :=
  c == '_' || isPySpace c

/-- Python `str.strip()` on a character list: drop leading and trailing
whitespace. -/
def pyStrip (l : List Char) : List Char :=
  ((l.dropWhile isPySpace).reverse.dropWhile isPySpace).reverse

/-- Python `str.strip()` on a `String`. -/
def pyStripS (s : String) : String :=
  ⟨pyStrip s.data⟩

/-- One pass of `re.sub(r'[_\s]+', ' ', s)`: each maximal run of
underscores/whitespace is replaced by a single space.  The boolean
flag records whether we are inside a run whose replacement space has
already been emitted. -/
def collapseAux : Bool → List Char → List Char
  | _, [] => []
  | inRun, c :: cs =>
    if isUnd c then
      if inRun then collapseAux true cs else ' ' :: collapseAux true cs
    else c :: collapseAux false cs

/-- Embedding of `sanitize_filename` (lines 47-58 of the source): replace invalid
filename characters by `_`, collapse `[_\s]+` runs to a single space,
strip, truncate to 100 characters (stripping again), with `"Unknown"`
for falsy input or an empty result. -/
def sanitize_filename (name : String) : String :=
  if name = "" then "Unknown"
  else
    let s1 := name.data.map fun c => if invalidChar c then '_' else c
    let s2 := pyStrip (collapseAux false s1)
    let s3 := if 100 < s2.length then pyStrip (s2.take 100) else s2
    if s3 = [] then "Unknown" else ⟨s3⟩

/-! ### Python string helpers used by the exporter -/

/-- Python truthiness of an optional string (`if not x`): `None` and
`""` are falsy. -/
def strTruthy : Option String → Bool
  | none => false
  | some s => !(s = "")

/-- Python `a or b` for an optional string `a` and a default `b`. -/
def strOr (a : Option String) (b : String) : String :=
  match a with
  | none => b
  | some s => if s = "" then b else s

/-- Model of `text.replace("￼", "")`: delete every occurrence of
the object-replacement character. -/
def removeORC (s : String) : String :=
  ⟨s.data.filter fun c => c ≠ '￼'⟩

/-- Model of `text.startswith("￼")`: the first character is the
object-replacement character. -/
def startsWithORC (s : String) : Bool :=
  s.data.head? == some '￼'

/-- Model of `path.startswith("~")`. -/
def startsWithTilde (s : String) : Bool :=
  s.data.head? == some '~'

/-- Model of `os.path.expanduser` for a path that begins with `~`:
the leading `~` is replaced by the home directory. -/
def expanduser (home p : String) : String :=
  ⟨home.data ++ p.data.drop 1⟩

/-- Does `n` occur at the start of `h`?  (Helper for Python's `in`.) -/
def leadsList (n : List Char) : List Char → Bool :=
  fun h =>
    match n, h with
    | [], _ => true
    | _ :: _, [] => false
    | a :: n', b :: h' => a == b && leadsList n' h'

/-- Does `n` occur contiguously anywhere in `h`?  (Helper for Python's
`in`.) -/
def occursIn (n : List Char) : List Char → Bool
  | [] => n.isEmpty
  | c :: t => leadsList n (c :: t) || occursIn n t

/-- Python `needle in hay` for strings: contiguous-substring test. -/
def strIn (needle hay : String) : Bool :=
  occursIn needle.data hay.data

/-! ### Timestamp normalizer -/

/-- The source epoch (2001-01-01) expressed in seconds since the Unix
epoch.  The Python module computes it once at import time via
`datetime.datetime(2001, 1, 1).timestamp()`; it is a fixed constant
for the duration of a run. -/
def APPLE_EPOCH_OFFSET : ℚ := 978307200

/-- Embedding of `apple_timestamp_to_datetime` (lines 34-44): `None`/`0` map to no
timestamp; values above `1e15` and values above `1e12` are divided by
`1e9`; then the epoch offset is added.  The resulting epoch-seconds
value (a `ℚ`, standing for the Python float) is what
`datetime.datetime.fromtimestamp` receives. -/
def apple_timestamp_to_datetime (timestamp : Option Int) : Option ℚ :=
  match timestamp with
  | none => none
  | some t =>
    if t = 0 then none
    else if (t : ℚ) > 10 ^ 15 then some ((t : ℚ) / 10 ^ 9 + APPLE_EPOCH_OFFSET)
    else if (t : ℚ) > 10 ^ 12 then some ((t : ℚ) / 10 ^ 9 + APPLE_EPOCH_OFFSET)
    else some ((t : ℚ) + APPLE_EPOCH_OFFSET)

/-! ### Reaction classifier -/

/-- Embedding of `format_reaction` (lines 153-169): the fixed 12-entry mapping from
`associated_message_type` codes to verb phrases; anything else,
including `NULL`, is not a reaction. -/
def format_reaction : Option Int → Option String
  | some 2000 => some "Loved"
  | some 2001 => some "Liked"
  | some 2002 => some "Disliked"
  | some 2003 => some "Laughed at"
  | some 2004 => some "Emphasized"
  | some 2005 => some "Questioned"
  | some 3000 => some "Removed love from"
  | some 3001 => some "Removed like from"
  | some 3002 => some "Removed dislike from"
  | some 3003 => some "Removed laugh from"
  | some 3004 => some "Removed emphasis from"
  | some 3005 => some "Removed question from"
  | _ => none

/-- The target description used in a reaction line (lines 296-299):
`msg["text"] or "a message"`, replaced by `"a message"` when it starts
with the object-replacement character. -/
def reaction_target (text : Option String) : String :=
  let t := strOr text "a message"
  if startsWithORC t then "a message" else t

/-! ### Attachment materializer -/

/-- Index of the last occurrence of `c` in `l`, or `-1` (Python
`str.rfind`). -/
def rfindChar (l : List Char) (c : Char) : Int :=
  match l.reverse.findIdx? (· == c) with
  | some j => (l.length : Int) - 1 - (j : Int)
  | none => -1

/-- Model of `os.path.splitext` (posix): split at the last dot, unless
it only follows dots at the start of the base name. -/
def splitext (p : String) : String × String :=
  let l := p.data
  let sepIndex := rfindChar l '/'
  let dotIndex := rfindChar l '.'
  if sepIndex < dotIndex &&
      (List.range l.length).any
        (fun j => decide (sepIndex < (j : Int)) && decide ((j : Int) < dotIndex)
          && !(l.getD j ' ' == '.')) then
    (⟨l.take dotIndex.toNat⟩, ⟨l.drop dotIndex.toNat⟩)
  else (p, "")

/-- Model of `os.path.basename`: everything after the last `/`. -/
def basename (p : String) : String :=
  ⟨p.data.drop (rfindChar p.data '/' + 1).toNat⟩

/-- The candidate name `f"{base}_{counter}{ext}"` tried by the
collision loop of `copy_attachment_file`. -/
def candName (base ext : String) (n : ℕ) : String :=
  base ++ "_" ++ Nat.repr n ++ ext

/-- The `while os.path.exists(dest_path)` loop of
`copy_attachment_file` (lines 193-197), unrolled with explicit fuel:
starting at counter `k`, return the first candidate name not present
in the directory.  `none` means the fuel ran out; the fuel
`dir.length + 1` used below provably always suffices. -/
def collisionLoop (dir : List String) (base ext : String) : ℕ → ℕ → Option String
  | 0, _ => none
  | f + 1, k =>
    if candName base ext k ∈ dir then collisionLoop dir base ext f (k + 1)
    else some (candName base ext k)

/-- Collision resolution of `copy_attachment_file` (lines 188-197): if
the preferred destination name is taken, try `base_1.ext`,
`base_2.ext`, ... and keep the first free name. -/
def resolveCollision (dir : List String) (dest_name : String) : String :=
  if dest_name ∈ dir then
    let be := splitext dest_name
    (collisionLoop dir be.1 be.2 (dir.length + 1) 1).getD dest_name
  else dest_name

/-- An `attachment` row as consumed by the exporter. -/
structure Attachment where
  attachment_id : ℕ
  filename : Option String
  mime_type : Option String
  transfer_name : Option String
  total_bytes : ℕ

/-- The file-system oracles: the home directory, which source paths
exist, and whether `shutil.copy2` from a given source to a given
destination name succeeds (raising `OSError`/`IOError` is modelled as
`copyOk = false`). -/
structure FS where
  home : String
  srcExists : String → Bool
  copyOk : String → String → Bool

/-- Source-path resolution of `copy_attachment_file` (lines 180-183):
expand a leading `~` to the home directory. -/
def resolve_source_path (home p : String) : String :=
  if startsWithTilde p then expanduser home p else p

/-- The resolved source path of an attachment record. -/
def attachment_source_path (fs : FS) (att : Attachment) : String :=
  resolve_source_path fs.home (att.filename.getD "")

/-- The destination name finally chosen for an attachment (line 188
plus the collision loop): the transfer name, else the source base
name, disambiguated against the directory contents. -/
def attachment_final_name (fs : FS) (att : Attachment) (dir : List String) : String :=
  resolveCollision dir (strOr att.transfer_name (basename (attachment_source_path fs att)))

/-- Embedding of `copy_attachment_file` (lines 172-203).  The state of the
destination directory is the list of file names already present; on a
successful copy the chosen name is added to it.  All failure modes
(falsy `filename`, missing source, failing copy) return `none` and
leave the directory unchanged; the Lean function is total, matching
the Python contract of never raising. -/
def copy_attachment_file (fs : FS) (att : Attachment) (dir : List String) :
    Option String × List String :=
  if strTruthy att.filename = false then (none, dir)
  else
    let source_path := attachment_source_path fs att
    if fs.srcExists source_path = false then (none, dir)
    else
      let final_name := attachment_final_name fs att dir
      if fs.copyOk source_path final_name then
        (some (basename final_name), final_name :: dir)
      else (none, dir)

/-! ### Transcript assembler -/

/-- A `message` row as consumed by the transcript assembler. -/
structure Message where
  message_id : ℕ
  text : Option String
  message_date : Option Int
  is_from_me : Bool
  sender_id : Option String
  associated_message_type : Option Int

/-- A `chat` row (with its `GROUP_CONCAT`ed participants). -/
structure Chat where
  chat_id : ℕ
  chat_identifier : Option String
  display_name : Option String
  chat_style : Int
  participants : Option String

/-- Embedding of `get_chat_display_name` (lines 104-112). -/
def get_chat_display_name (c : Chat) : String :=
  if strTruthy c.display_name then c.display_name.getD ""
  else if strTruthy c.participants then c.participants.getD ""
  else if strTruthy c.chat_identifier then c.chat_identifier.getD ""
  else "Chat " ++ Nat.repr c.chat_id

/-- Model of Python `str.lower()`: lowercase each character (ASCII
case mapping; the identifiers and filters involved are phone numbers,
email addresses and names). -/
def lowerS (s : String) : String :=
  ⟨s.data.map Char.toLower⟩

/-- The contact-filter predicate of `do_readable_export` (lines
255-261): the filter, lowercased, occurs in one of the chat
identifier, participant list, or display name, absent fields counting
as the empty string. -/
def chat_passes_filter (f : String) (c : Chat) : Bool :=
  [(c.chat_identifier.getD ""), (c.participants.getD ""), (c.display_name.getD "")].any
    fun ident => strIn (lowerS f) (lowerS ident)

/-- Whether a chat is included in the readable export: it survives the
contact filter (lines 255-262; a falsy filter disables filtering) and
it has at least one message (lines 264-266). -/
def chat_included (filter : Option String) (c : Chat) (msgs : List Message) : Bool :=
  (match filter with
   | none => true
   | some f => if f = "" then true else chat_passes_filter f c) &&
  !msgs.isEmpty

/-- The fixed transcript header (lines 279-284). -/
def chat_header (c : Chat) (chat_name : String) (nMsgs : ℕ) : List String :=
  [⟨List.replicate 60 '='⟩,
   (if c.chat_style = 43 then "Group Chat" else "Conversation") ++ ": " ++ chat_name,
   ⟨List.replicate 60 '='⟩,
   "Messages: " ++ Nat.repr nMsgs,
   ""]

/-- The body-text content parts of a regular message (lines 321-326):
if the body is non-empty after stripping, the body with the
object-replacement character removed and re-stripped, provided that is
non-empty. -/
def text_parts (text : String) : List String :=
  if pyStripS text ≠ "" then
    let clean_text := pyStripS (removeORC text)
    if clean_text ≠ "" then [clean_text] else []
  else []

/-- One step of the attachment loop (lines 309-318): accumulate the
`<attachment: ...>` note, thread the directory state, and count
successful copies. -/
def attachment_note_step (fs : FS) (acc : List String × List String × ℕ)
    (att : Attachment) : List String × List String × ℕ :=
  let att_name := strOr att.transfer_name "file"
  let r := copy_attachment_file fs att acc.2.1
  match r.1 with
  | some copied_name => (acc.1 ++ ["<attachment: " ++ copied_name ++ ">"], r.2, acc.2.2 + 1)
  | none => (acc.1 ++ ["<attachment: " ++ att_name ++ " (not available)>"], r.2, acc.2.2)

/-- The attachment loop of a message: notes, final directory state,
number of successful copies. -/
def attachment_fold (fs : FS) (atts : List Attachment) (dir : List String) :
    List String × List String × ℕ :=
  atts.foldl (attachment_note_step fs) ([], dir, 0)

/-- Result of rendering one message: the emitted transcript lines
(zero or one), the directory state after any attachment copies, and
the number of attachments copied. -/
structure RendResult where
  lines : List String
  dir : List String
  copied : ℕ

/-- Rendering of a single message (lines 286-334, minus the counter
which lives in `process_messages`): reaction lines short-circuit;
otherwise the body parts and attachment notes are joined under a
single `[timestamp] sender:` prefix, and a message with no parts emits
nothing. -/
def render_message (fmt : ℚ → String) (fs : FS) (msg : Message)
    (atts : List Attachment) (dir : List String) : RendResult :=
  let timestamp :=
    match apple_timestamp_to_datetime msg.message_date with
    | some q => fmt q
    | none => "Unknown date"
  let sender := if msg.is_from_me then "Me" else strOr msg.sender_id "Unknown"
  match format_reaction msg.associated_message_type with
  | some reaction =>
    ⟨["[" ++ timestamp ++ "] " ++ sender ++ " " ++ reaction ++ " " ++
        reaction_target msg.text], dir, 0⟩
  | none =>
    let text := strOr msg.text ""
    let notes := attachment_fold fs atts dir
    let parts := text_parts text ++ notes.1
    match parts with
    | [] => ⟨[], notes.2.1, notes.2.2⟩
    | p :: ps =>
      let content := if ps ≠ [] then String.intercalate "\n    " parts else p
      ⟨["[" ++ timestamp ++ "] " ++ sender ++ ": " ++ content], notes.2.1, notes.2.2⟩

/-- Aggregate result of the message loop: transcript lines, final
directory state, messages visited (`total_messages`), attachments
copied (`total_attachments_copied`). -/
structure ProcResult where
  lines : List String
  dir : List String
  msgCount : ℕ
  copied : ℕ

/-- The message loop of `do_readable_export` (lines 286-334): messages
arrive already ordered by the query's `ORDER BY m.date ASC`; the
per-chat attachments directory state is threaded through. -/
def process_messages (fmt : ℚ → String) (fs : FS) (attsOf : ℕ → List Attachment) :
    List Message → List String → ProcResult
  | [], dir => ⟨[], dir, 0, 0⟩
  | m :: ms, dir =>
    let r := render_message fmt fs m (attsOf m.message_id) dir
    let rest := process_messages fmt fs attsOf ms r.dir
    ⟨r.lines ++ rest.lines, rest.dir, rest.msgCount + 1, r.copied + rest.copied⟩

/-- Full transcript of one included chat: header followed by the
rendered message lines. -/
def chat_transcript (fmt : ℚ → String) (fs : FS) (attsOf : ℕ → List Attachment)
    (c : Chat) (msgs : List Message) : List String :=
  chat_header c (get_chat_display_name c) msgs.length ++
    (process_messages fmt fs attsOf msgs []).lines

/-! ### Concrete scenario data used by individual claims -/

/-- A one-to-one chat whose canonical identifier contains "+1555". -/
def chat3 : Chat := ⟨7, some "+15551234567", none, 45, some "+15551234567"⟩

/-- A plain text message for the filter scenario. -/
def msg3a : Message := ⟨1, some "hi", some 100, true, none, some 0⟩

/-- A file system in which every source exists and every copy
succeeds. -/
def fs6 : FS := ⟨"/Users/u", fun _ => true, fun _ _ => true⟩

/-- An attachment with transfer name `photo.jpg`. -/
def att6 : Attachment := ⟨1, some "~/Library/photo.jpg", some "image/jpeg", some "photo.jpg", 1000⟩

/-- Timestamp formatter for the end-to-end scenario (the claims do not
depend on the text of a formatted date). -/
def fmt7 : ℚ → String := fun _ => "T"

/-- File system for the end-to-end scenario. -/
def fs7 : FS := ⟨"/Users/u", fun p => p == "/Users/u/Library/photo.jpg", fun _ _ => true⟩

/-- The attachment of the third scenario message. -/
def att7 : Attachment := ⟨1, some "~/Library/photo.jpg", some "image/jpeg", some "photo.jpg", 1000⟩

/-- Scenario message 1: a plain text message. -/
def msg7a : Message := ⟨1, some "hello", some 100, false, some "+15551234567", some 0⟩

/-- Scenario message 2: a "Liked" reaction whose stored body carries
the first message's text. -/
def msg7b : Message := ⟨2, some "hello", some 200, true, none, some 2001⟩

/-- Scenario message 3: an attachment-only message (no body text). -/
def msg7c : Message := ⟨3, none, some 300, false, some "+15551234567", some 0⟩

/-- Attachment lookup for the scenario: only message 3 has one. -/
def attsOf7 : ℕ → List Attachment := fun i => if i == 3 then [att7] else []

/-! ### Invariants used by the proofs -/

/-- No two adjacent characters are both in the `[_\s]` class. -/
def noAdjUnd (a b : Char) : Prop := ¬(isUnd a = true ∧ isUnd b = true)

/-- The invariant satisfied by every non-fallback output of
`sanitize_filename`: no invalid characters, every `[_\s]`-class
character is a plain space, no two adjacent such characters, ends not
whitespace, and at most 100 characters. -/
structure CleanList (l : List Char) : Prop where
  chars : ∀ c ∈ l, invalidChar c = false ∧ (isUnd c = true → c = ' ')
  chain : l.Chain' noAdjUnd
  headOk : ∀ c ∈ l.head?, isPySpace c = false
  lastOk : ∀ c ∈ l.getLast?, isPySpace c = false
  short : l.length ≤ 100

/-- An attachment record for the soft-failure scenarios. -/
def att5 : Attachment := ⟨1, some "~/Library/photo.jpg", some "image/jpeg", some "photo.jpg", 1000⟩

/-- An attachment-only message for the soft-failure scenario. -/
def msg5 : Message := ⟨3, none, some 300, false, none, some 0⟩

/-! ## Helper lemmas

Decimal rendering of naturals (`Nat.repr`) is injective; the collision
loop always finds the least free suffix; the sanitizer pipeline
produces `CleanList` outputs and is the identity on them. -/

lemma toDigitsCore_append (b : ℕ) :
    ∀ (f n : ℕ) (ds : List Char),
      Nat.toDigitsCore b f n ds = Nat.toDigitsCore b f n [] ++ ds := by
  intro f
  induction f with
  | zero => intro n ds; simp [Nat.toDigitsCore]
  | succ f ih =>
    intro n ds
    simp only [Nat.toDigitsCore]
    by_cases h : n / b = 0
    · simp [h]
    · simp only [h, if_false]
      rw [ih (n / b) (Nat.digitChar (n % b) :: ds), ih (n / b) [Nat.digitChar (n % b)]]
      simp

lemma toDigitsCore_fuel (b : ℕ) (hb : 2 ≤ b) :
    ∀ (n f g : ℕ), n < f → n < g →
      Nat.toDigitsCore b f n [] = Nat.toDigitsCore b g n [] := by
  intro n
  induction n using Nat.strong_induction_on with
  | _ n IH =>
    intro f g hf hg
    match f, g with
    | f + 1, g + 1 =>
      simp only [Nat.toDigitsCore]
      by_cases h : n / b = 0
      · simp [h]
      · simp only [h, if_false]
        rw [toDigitsCore_append b f, toDigitsCore_append b g]
        have hb0 : 0 < b := by omega
        have hn0 : 0 < n := by
          rcases Nat.eq_zero_or_pos n with h0 | h0
          · exfalso; apply h; simp [h0]
          · exact h0
        have hdiv : n / b < n := Nat.div_lt_self hn0 hb
        rw [IH (n / b) hdiv f g (by omega) (by omega)]

lemma toDigits_unfold (n : ℕ) :
    Nat.toDigits 10 n =
      if n < 10 then [Nat.digitChar n]
      else Nat.toDigits 10 (n / 10) ++ [Nat.digitChar (n % 10)] := by
  by_cases h : n < 10
  · simp only [h, if_true, Nat.toDigits, Nat.toDigitsCore]
    have : n / 10 = 0 := Nat.div_eq_of_lt h
    simp [this, Nat.mod_eq_of_lt h]
  · simp only [h, if_false, Nat.toDigits, Nat.toDigitsCore]
    have h10 : n / 10 ≠ 0 := by
      intro h0
      exact h ((Nat.div_eq_zero_iff (by norm_num)).mp h0)
    simp only [h10, if_false]
    rw [toDigitsCore_append 10 n]
    congr 1
    have hdiv : n / 10 < n := Nat.div_lt_self (by omega) (by norm_num)
    exact toDigitsCore_fuel 10 (by norm_num) (n / 10) n (n / 10 + 1) (by omega) (by omega)

lemma toDigits_ne_nil (n : ℕ) : Nat.toDigits 10 n ≠ [] := by
  rw [toDigits_unfold]
  by_cases h : n < 10 <;> simp [h]

lemma digitChar_inj (a c : ℕ) (ha : a < 10) (hc : c < 10) :
    Nat.digitChar a = Nat.digitChar c → a = c := by
  interval_cases a <;> interval_cases c <;> simp_all [Nat.digitChar]

lemma toDigits_inj : ∀ (m n : ℕ), Nat.toDigits 10 m = Nat.toDigits 10 n → m = n := by
  intro m
  induction m using Nat.strong_induction_on with
  | _ m IH =>
    intro n h
    rw [toDigits_unfold m, toDigits_unfold n] at h
    by_cases hm : m < 10 <;> by_cases hn : n < 10
    · simp only [hm, hn, if_true] at h
      exact digitChar_inj m n hm hn (by injection h)
    · exfalso
      simp only [hm, hn, if_true, if_false] at h
      cases hh : Nat.toDigits 10 (n / 10) with
      | nil => exact toDigits_ne_nil (n / 10) hh
      | cons a l =>
        rw [hh] at h
        have hlen := congrArg List.length h
        simp [List.length_append] at hlen
    · exfalso
      simp only [hm, hn, if_true, if_false] at h
      cases hh : Nat.toDigits 10 (m / 10) with
      | nil => exact toDigits_ne_nil (m / 10) hh
      | cons a l =>
        rw [hh] at h
        have hlen := congrArg List.length h
        simp [List.length_append] at hlen
    · simp only [hm, hn, if_false] at h
      have h2 := List.append_inj' h (by simp)
      obtain ⟨h3, h4⟩ := h2
      have hdiv : m / 10 < m := Nat.div_lt_self (by omega) (by norm_num)
      have hq : m / 10 = n / 10 := IH (m / 10) hdiv (n / 10) h3
      have hr : m % 10 = n % 10 := by
        apply digitChar_inj _ _ (Nat.mod_lt _ (by norm_num)) (Nat.mod_lt _ (by norm_num))
        injection h4
      omega

lemma nat_repr_inj {m n : ℕ} (h : Nat.repr m = Nat.repr n) : m = n := by
  apply toDigits_inj
  have := List.asString_inj.mp h
  exact this

lemma candName_inj (base ext : String) {m n : ℕ}
    (h : candName base ext m = candName base ext n) : m = n := by
  apply nat_repr_inj
  have hd := congrArg String.data h
  simp only [candName, String.data_append] at hd
  have h1 := List.append_cancel_right hd
  have h2 := List.append_cancel_left h1
  exact String.ext h2

lemma collisionLoop_found (dir : List String) (base ext : String) :
    ∀ (f k : ℕ), (∃ j, j < f ∧ candName base ext (k + j) ∉ dir) →
      ∃ j, j < f ∧ candName base ext (k + j) ∉ dir ∧
        (∀ i, i < j → candName base ext (k + i) ∈ dir) ∧
        collisionLoop dir base ext f k = some (candName base ext (k + j)) := by
  intro f
  induction f with
  | zero => intro k ⟨j, hj, _⟩; omega
  | succ f ih =>
    intro k ⟨j, hj, hfree⟩
    by_cases hk : candName base ext k ∈ dir
    · have hj0 : j ≠ 0 := by
        intro h0
        rw [h0, Nat.add_zero] at hfree
        exact hfree hk
      obtain ⟨j', hj', hfree', hall', hloop'⟩ := ih (k + 1)
        ⟨j - 1, by omega, by rw [show k + 1 + (j - 1) = k + j by omega]; exact hfree⟩
      refine ⟨j' + 1, by omega, ?_, ?_, ?_⟩
      · rw [show k + (j' + 1) = k + 1 + j' by omega]; exact hfree'
      · intro i hi
        cases i with
        | zero => simpa using hk
        | succ i =>
          rw [show k + (i + 1) = k + 1 + i by omega]
          exact hall' i (by omega)
      · simp only [collisionLoop, hk, if_true]
        rw [hloop']
        congr 1
        congr 1
        omega
    · exact ⟨0, by omega, by simpa using hk, by omega,
        by simp only [collisionLoop, hk, if_false]; rw [Nat.add_zero]⟩

lemma exists_free_cand (dir : List String) (base ext : String) :
    ∃ j, j < dir.length + 1 ∧ candName base ext (1 + j) ∉ dir := by
  by_contra hcon
  push_neg at hcon
  have hmaps : ∀ a ∈ Finset.range (dir.length + 1),
      candName base ext (1 + a) ∈ dir.toFinset := by
    intro a ha
    rw [List.mem_toFinset]
    exact hcon a (Finset.mem_range.mp ha)
  have hinj : Set.InjOn (fun a => candName base ext (1 + a))
      (Finset.range (dir.length + 1) : Set ℕ) := by
    intro a _ b _ hab
    have := candName_inj base ext hab
    omega
  have := Finset.card_le_card_of_injOn _ hmaps hinj
  rw [Finset.card_range] at this
  have := List.toFinset_card_le (l := dir)
  omega

lemma collisionLoop_spec (dir : List String) (base ext : String) :
    ∃ n, 1 ≤ n ∧ candName base ext n ∉ dir ∧
      (∀ m, 1 ≤ m → m < n → candName base ext m ∈ dir) ∧
      collisionLoop dir base ext (dir.length + 1) 1 = some (candName base ext n) := by
  obtain ⟨j, hj, hfree⟩ := exists_free_cand dir base ext
  obtain ⟨j', hj', hfree', hall', hloop'⟩ :=
    collisionLoop_found dir base ext (dir.length + 1) 1 ⟨j, hj, hfree⟩
  refine ⟨1 + j', by omega, hfree', ?_, hloop'⟩
  intro m hm1 hm2
  have := hall' (m - 1) (by omega)
  rwa [show 1 + (m - 1) = m by omega] at this

lemma dropWhile_head_prop (p : Char → Bool) (l : List Char) :
    ∀ c ∈ (l.dropWhile p).head?, p c = false := by
  induction l with
  | nil => simp [List.dropWhile]
  | cons a cs ih =>
    intro c hc
    by_cases ha : p a
    · simp only [List.dropWhile, ha] at hc
      exact ih c hc
    · have haf : p a = false := by simpa using ha
      simp only [List.dropWhile, haf, List.head?_cons, Option.mem_def,
        Option.some_inj] at hc
      rw [← hc]
      exact haf

lemma noAdjUnd_symm {a b : Char} (h : noAdjUnd a b) : noAdjUnd b a := by
  intro ⟨h1, h2⟩; exact h ⟨h2, h1⟩

lemma map_invalid_id (l : List Char) (h : ∀ c ∈ l, invalidChar c = false) :
    (l.map fun c => if invalidChar c then '_' else c) = l := by
  induction l with
  | nil => rfl
  | cons c cs ih =>
    simp only [List.map_cons]
    rw [ih fun x hx => h x (List.mem_cons_of_mem c hx)]
    have := h c (List.mem_cons_self c cs)
    simp [this]

lemma collapseAux_id (l : List Char) (h1 : ∀ c ∈ l, isUnd c = true → c = ' ')
    (h2 : l.Chain' noAdjUnd) :
    collapseAux false l = l ∧
      ((∀ c ∈ l.head?, isUnd c = false) → collapseAux true l = l) := by
  induction l with
  | nil => exact ⟨rfl, fun _ => rfl⟩
  | cons c cs ih =>
    have h1' : ∀ x ∈ cs, isUnd x = true → x = ' ' :=
      fun x hx => h1 x (List.mem_cons_of_mem c hx)
    rw [List.chain'_cons'] at h2
    obtain ⟨hrel, h2'⟩ := h2
    obtain ⟨ihf, iht⟩ := ih h1' h2'
    by_cases hc : isUnd c = true
    · have hsp : c = ' ' := h1 c (List.mem_cons_self c cs) hc
      have hcs_head : ∀ x ∈ cs.head?, isUnd x = false := by
        intro x hx
        have := hrel x hx
        simp only [noAdjUnd] at this
        by_contra hxu
        simp only [Bool.not_eq_false] at hxu
        exact this ⟨hc, hxu⟩
      constructor
      · simp only [collapseAux, hc, if_true, Bool.false_eq_true, if_false]
        rw [iht hcs_head, hsp]
      · intro hhead
        have := hhead c (by simp)
        rw [hc] at this
        simp at this
    · have hcf : isUnd c = false := by simpa using hc
      constructor
      · simp only [collapseAux, hcf]
        simp only [Bool.false_eq_true, if_false]
        rw [ihf]
      · intro _
        simp only [collapseAux, hcf]
        simp only [Bool.false_eq_true, if_false]
        rw [ihf]

lemma dropWhile_of_head (p : Char → Bool) (l : List Char)
    (h : ∀ c ∈ l.head?, p c = false) : l.dropWhile p = l := by
  cases l with
  | nil => rfl
  | cons c cs =>
    have := h c (by simp)
    simp [List.dropWhile, this]

lemma pyStrip_id (l : List Char) (hh : ∀ c ∈ l.head?, isPySpace c = false)
    (hl : ∀ c ∈ l.getLast?, isPySpace c = false) : pyStrip l = l := by
  unfold pyStrip
  rw [dropWhile_of_head _ _ hh]
  rw [dropWhile_of_head _ _ (by rwa [List.head?_reverse])]
  exact List.reverse_reverse l

lemma collapseAux_true_head (l : List Char) :
    ∀ c ∈ (collapseAux true l).head?, isUnd c = false := by
  induction l with
  | nil => simp [collapseAux]
  | cons c cs ih =>
    by_cases hc : isUnd c = true
    · simpa [collapseAux, hc] using ih
    · have hcf : isUnd c = false := by simpa using hc
      intro x hx
      simp only [collapseAux, hcf, Bool.false_eq_true, if_false, List.head?_cons,
        Option.mem_def, Option.some_inj] at hx
      rw [← hx]
      exact hcf

lemma collapseAux_chain (l : List Char) : ∀ b, (collapseAux b l).Chain' noAdjUnd := by
  induction l with
  | nil => intro b; simp [collapseAux]
  | cons c cs ih =>
    intro b
    by_cases hc : isUnd c = true
    · cases b with
      | true => simpa [collapseAux, hc] using ih true
      | false =>
        simp only [collapseAux, hc, if_true, Bool.false_eq_true, if_false]
        rw [List.chain'_cons']
        refine ⟨?_, ih true⟩
        intro y hy
        have := collapseAux_true_head cs y hy
        intro ⟨_, hy2⟩
        rw [this] at hy2
        exact absurd hy2 (by simp)
    · have hcf : isUnd c = false := by simpa using hc
      simp only [collapseAux, hcf, Bool.false_eq_true, if_false]
      rw [List.chain'_cons']
      refine ⟨?_, ih false⟩
      intro y _
      intro ⟨hy1, _⟩
      rw [hcf] at hy1
      exact absurd hy1 (by simp)

lemma collapseAux_mem (l : List Char) :
    ∀ b, ∀ c ∈ collapseAux b l, c = ' ' ∨ (c ∈ l ∧ isUnd c = false) := by
  induction l with
  | nil => intro b c hc; simp [collapseAux] at hc
  | cons a cs ih =>
    intro b c hc
    by_cases ha : isUnd a = true
    · cases b with
      | true =>
        simp only [collapseAux, ha, if_true] at hc
        rcases ih true c hc with h | ⟨h1, h2⟩
        · exact Or.inl h
        · exact Or.inr ⟨List.mem_cons_of_mem a h1, h2⟩
      | false =>
        simp only [collapseAux, ha, if_true, Bool.false_eq_true, if_false,
          List.mem_cons] at hc
        rcases hc with h | h
        · exact Or.inl h
        · rcases ih true c h with h' | ⟨h1, h2⟩
          · exact Or.inl h'
          · exact Or.inr ⟨List.mem_cons_of_mem a h1, h2⟩
    · have haf : isUnd a = false := by simpa using ha
      simp only [collapseAux, haf, Bool.false_eq_true, if_false, List.mem_cons] at hc
      rcases hc with h | h
      · subst h; exact Or.inr ⟨List.mem_cons_self c cs, haf⟩
      · rcases ih false c h with h' | ⟨h1, h2⟩
        · exact Or.inl h'
        · exact Or.inr ⟨List.mem_cons_of_mem a h1, h2⟩

lemma pyStrip_subset (l : List Char) : pyStrip l ⊆ l := by
  intro c hc
  unfold pyStrip at hc
  rw [List.mem_reverse] at hc
  have h1 := List.IsSuffix.subset (List.dropWhile_suffix isPySpace) hc
  rw [List.mem_reverse] at h1
  exact List.IsSuffix.subset (List.dropWhile_suffix isPySpace) h1

lemma pyStrip_chain (l : List Char) (h : l.Chain' noAdjUnd) :
    (pyStrip l).Chain' noAdjUnd := by
  unfold pyStrip
  rw [List.chain'_reverse]
  have h1 : (l.dropWhile isPySpace).Chain' noAdjUnd :=
    List.Chain'.suffix h (List.dropWhile_suffix isPySpace)
  have h2 : ((l.dropWhile isPySpace).reverse).Chain' noAdjUnd := by
    rw [List.chain'_reverse]
    exact List.Chain'.imp (fun a b hab => noAdjUnd_symm hab) h1
  have h3 := List.Chain'.suffix h2 (List.dropWhile_suffix isPySpace)
  exact List.Chain'.imp (fun a b hab => noAdjUnd_symm hab) h3

lemma pyStrip_headOk (l : List Char) : ∀ c ∈ (pyStrip l).head?, isPySpace c = false := by
  intro c hc
  unfold pyStrip at hc
  rw [List.head?_reverse] at hc
  set m2 := (l.dropWhile isPySpace).reverse.dropWhile isPySpace with hm2
  obtain ⟨t, ht⟩ := List.dropWhile_suffix (l := (l.dropWhile isPySpace).reverse) isPySpace
  by_cases hnil : m2 = []
  · rw [hnil] at hc; simp at hc
  · rw [← hm2] at ht
    have : m2.getLast? = ((l.dropWhile isPySpace).reverse).getLast? := by
      rw [← ht]
      exact (List.getLast?_append_of_ne_nil t hnil).symm
    rw [this, List.getLast?_reverse] at hc
    exact dropWhile_head_prop isPySpace _ c hc

lemma pyStrip_lastOk (l : List Char) : ∀ c ∈ (pyStrip l).getLast?, isPySpace c = false := by
  intro c hc
  unfold pyStrip at hc
  rw [List.getLast?_reverse] at hc
  exact dropWhile_head_prop isPySpace _ c hc

lemma pyStrip_length (l : List Char) : (pyStrip l).length ≤ l.length := by
  unfold pyStrip
  rw [List.length_reverse]
  calc ((l.dropWhile isPySpace).reverse.dropWhile isPySpace).length
      ≤ (l.dropWhile isPySpace).reverse.length :=
        List.IsSuffix.length_le (List.dropWhile_suffix isPySpace)
    _ = (l.dropWhile isPySpace).length := List.length_reverse _
    _ ≤ l.length := List.IsSuffix.length_le (List.dropWhile_suffix isPySpace)

lemma s1_chars (l : List Char) :
    ∀ c ∈ (l.map fun c => if invalidChar c then '_' else c),
      c = '_' ∨ invalidChar c = false := by
  intro c hc
  rw [List.mem_map] at hc
  obtain ⟨a, _, ha⟩ := hc
  by_cases hinv : invalidChar a
  · left; rw [← ha]; simp [hinv]
  · right; rw [← ha]; simp only [hinv, if_false]; simpa using hinv

lemma clean_of_collapse_strip (s1 : List Char)
    (hs1 : ∀ c ∈ s1, c = '_' ∨ invalidChar c = false)
    (s2 : List Char) (hs2 : s2 = pyStrip (collapseAux false s1)) :
    (∀ c ∈ s2, invalidChar c = false ∧ (isUnd c = true → c = ' ')) ∧
      s2.Chain' noAdjUnd ∧
      (∀ c ∈ s2.head?, isPySpace c = false) ∧
      (∀ c ∈ s2.getLast?, isPySpace c = false) := by
  subst hs2
  refine ⟨?_, pyStrip_chain _ (collapseAux_chain s1 false), pyStrip_headOk _, pyStrip_lastOk _⟩
  intro c hc
  have hmem := pyStrip_subset _ hc
  rcases collapseAux_mem s1 false c hmem with h | ⟨h1, h2⟩
  · subst h
    constructor
    · decide
    · intro _; rfl
  · constructor
    · rcases hs1 c h1 with h' | h'
      · exfalso; rw [h'] at h2; simp [isUnd] at h2
      · exact h'
    · intro hu; rw [hu] at h2; simp at h2

lemma sanitize_clean (x : String) :
    sanitize_filename x = "Unknown" ∨
      ∃ l, l ≠ [] ∧ CleanList l ∧ sanitize_filename x = ⟨l⟩ := by
  unfold sanitize_filename
  by_cases hx : x = ""
  · left; simp [hx]
  · simp only [hx, if_false]
    set s1 := x.data.map fun c => if invalidChar c then '_' else c with hs1
    set s2 := pyStrip (collapseAux false s1) with hs2
    set s3 := (if 100 < s2.length then pyStrip (s2.take 100) else s2) with hs3
    by_cases h3 : s3 = []
    · left; simp [h3]
    · right
      refine ⟨s3, h3, ?_, by simp [h3]⟩
      obtain ⟨hchars, hchain, hhead, hlast⟩ :=
        clean_of_collapse_strip s1 (s1_chars x.data) s2 hs2
      by_cases hlen : 100 < s2.length
      · rw [hs3]
        simp only [hlen, if_true]
        refine ⟨?_, ?_, pyStrip_headOk _, pyStrip_lastOk _, ?_⟩
        · intro c hc
          exact hchars c (List.take_subset 100 s2 (pyStrip_subset _ hc))
        · exact pyStrip_chain _ (List.Chain'.take hchain 100)
        · calc (pyStrip (s2.take 100)).length ≤ (s2.take 100).length :=
                pyStrip_length _
            _ ≤ 100 := List.length_take_le 100 s2
      · rw [hs3]
        simp only [hlen, if_false]
        exact ⟨hchars, hchain, hhead, hlast, by omega⟩

lemma sanitize_fixed (l : List Char) (hne : l ≠ []) (hcl : CleanList l) :
    sanitize_filename ⟨l⟩ = ⟨l⟩ := by
  unfold sanitize_filename
  have hx : (⟨l⟩ : String) ≠ "" := by
    intro h
    exact hne (congrArg String.data h)
  simp only [hx, if_false]
  rw [map_invalid_id l fun c hc => (hcl.chars c hc).1]
  rw [(collapseAux_id l (fun c hc => (hcl.chars c hc).2) hcl.chain).1]
  rw [pyStrip_id l hcl.headOk hcl.lastOk]
  have hlen : ¬(100 < l.length) := by have := hcl.short; omega
  simp only [hlen, if_false, hne, ite_eq_right_iff]

lemma process_messages_append (fmt : ℚ → String) (fs : FS) (attsOf : ℕ → List Attachment)
    (ms : List Message) (m : Message) :
    ∀ dir,
      (process_messages fmt fs attsOf (ms ++ [m]) dir).lines =
        (process_messages fmt fs attsOf ms dir).lines ++
          (render_message fmt fs m (attsOf m.message_id)
            (process_messages fmt fs attsOf ms dir).dir).lines ∧
      (process_messages fmt fs attsOf (ms ++ [m]) dir).msgCount =
        (process_messages fmt fs attsOf ms dir).msgCount + 1 := by
  induction ms with
  | nil => intro dir; simp [process_messages]
  | cons a as ih =>
    intro dir
    simp only [List.cons_append, process_messages, List.append_eq]
    obtain ⟨h1, h2⟩ := ih (render_message fmt fs a (attsOf a.message_id) dir).dir
    constructor
    · rw [h1]; simp [List.append_assoc]
    · rw [h2]

lemma render_message_empty (fmt : ℚ → String) (fs : FS) (m : Message) (dir : List String)
    (h1 : pyStripS (removeORC (strOr m.text "")) = "")
    (h2 : format_reaction m.associated_message_type = none) :
    render_message fmt fs m [] dir = ⟨[], dir, 0⟩ := by
  unfold render_message
  rw [h2]
  have htp : text_parts (strOr m.text "") = [] := by
    unfold text_parts
    by_cases hs : pyStripS (strOr m.text "") ≠ ""
    · simp only [hs, if_true, h1]
      simp
    · simp [hs]
  simp [attachment_fold, htp]

/-! ## The claims -/

/-- Claim C1: the timestamp normalizer returns no timestamp exactly
for `None` and `0`; every non-zero value strictly above `1e12` is
divided by `1e9` before the epoch offset is added, and every non-zero
value at most `1e12` gets the offset with no division. -/
theorem c1_timestamp (t : Option Int) :
    (apple_timestamp_to_datetime t = none ↔ t = none ∨ t = some 0) ∧
    (∀ v : Int, t = some v → v ≠ 0 →
      ((10 ^ 12 : Int) < v →
        apple_timestamp_to_datetime t = some ((v : ℚ) / 10 ^ 9 + APPLE_EPOCH_OFFSET)) ∧
      (v ≤ (10 ^ 12 : Int) →
        apple_timestamp_to_datetime t = some ((v : ℚ) + APPLE_EPOCH_OFFSET))) := by
  cases t with
  | none => exact ⟨by simp [apple_timestamp_to_datetime], by intro v h; exact absurd h (by simp)⟩
  | some v =>
    constructor
    · by_cases hv : v = 0
      · simp [apple_timestamp_to_datetime, hv]
      · simp only [apple_timestamp_to_datetime, hv, if_false]
        constructor
        · intro h
          split_ifs at h
        · intro h
          rcases h with h | h
          · exact absurd h (by simp)
          · exact absurd (Option.some_inj.mp h) hv
    · intro w hw hw0
      have hvw : v = w := Option.some_inj.mp hw
      subst hvw
      constructor
      · intro hbig
        have hbigq : (10 ^ 12 : ℚ) < (v : ℚ) := by exact_mod_cast hbig
        simp only [apple_timestamp_to_datetime, hw0, if_false]
        by_cases h15 : (v : ℚ) > 10 ^ 15
        · simp [h15]
        · simp only [h15, if_false, gt_iff_lt, hbigq, if_true]
      · intro hsmall
        have hsmallq : (v : ℚ) ≤ 10 ^ 12 := by exact_mod_cast hsmall
        have h12 : ¬((v : ℚ) > 10 ^ 12) := by push_neg; exact hsmallq
        have h15 : ¬((v : ℚ) > 10 ^ 15) := by push_neg; nlinarith [hsmallq]
        simp only [apple_timestamp_to_datetime, hw0, if_false, gt_iff_lt]
        rw [if_neg h15, if_neg h12]

/-- Witness for C1: the branches of `c1_timestamp` evaluated at
concrete inputs. -/
theorem c1_timestamp_witness :
    ((2 * 10 ^ 12 : Int) ≠ 0 ∧ (10 ^ 12 : Int) < 2 * 10 ^ 12 ∧
      (5 : Int) ≠ 0 ∧ (5 : Int) ≤ 10 ^ 12) ∧
    apple_timestamp_to_datetime (some (2 * 10 ^ 12)) =
      some (((2 * 10 ^ 12 : Int) : ℚ) / 10 ^ 9 + APPLE_EPOCH_OFFSET) ∧
    apple_timestamp_to_datetime (some 5) = some (((5 : Int) : ℚ) + APPLE_EPOCH_OFFSET) ∧
    apple_timestamp_to_datetime (some 0) = none ∧
    apple_timestamp_to_datetime none = none :=
  ⟨⟨by norm_num, by norm_num, by norm_num, by norm_num⟩,
   ((c1_timestamp (some (2 * 10 ^ 12))).2 _ rfl (by norm_num)).1 (by norm_num),
   ((c1_timestamp (some 5)).2 5 rfl (by norm_num)).2 (by norm_num),
   (c1_timestamp (some 0)).1.mpr (Or.inr rfl),
   (c1_timestamp none).1.mpr (Or.inl rfl)⟩

/-- Counterexample to C2 as stated: for the body `"￼x"` — present,
and not equal to the single-character placeholder — the claim demands
the verbatim body, but the code produces `"a message"` because it
tests `startswith`, not equality. -/
theorem c2_counterexample :
    reaction_target (some "￼x") = "a message" ∧
    (some "￼x" : Option String) ≠ none ∧
    (some "￼x" : Option String) ≠ some "￼" ∧
    "￼x" ≠ "a message" :=
  ⟨by decide, by decide, by decide, by decide⟩

/-- Claim C2 as amended: the reaction target description is
`"a message"` exactly when the body is absent, empty, or STARTS WITH
the object-replacement placeholder; otherwise it is the body
verbatim. -/
theorem c2_amended (t : Option String) :
    reaction_target t =
      if t.getD "" = "" ∨ startsWithORC (t.getD "") = true then "a message"
      else t.getD "" := by
  cases t with
  | none => decide
  | some s =>
    by_cases hs : s = ""
    · subst hs; decide
    · by_cases ho : startsWithORC s = true
      · simp [reaction_target, strOr, hs, ho]
      · simp [reaction_target, strOr, hs, ho]

/-- Counterexample to C3 as stated: a conversation whose canonical
identifier contains the filter substring is nevertheless excluded from
the readable export when it has no messages, so "included iff the
filter matches" fails. -/
theorem c3_counterexample :
    chat_passes_filter "+1555" chat3 = true ∧
    chat_included (some "+1555") chat3 [] = false :=
  ⟨by decide, by decide⟩

/-- Claim C3 as amended: with an active contact filter, a conversation
is included iff the filter substring occurs case-insensitively in its
canonical identifier, participant list, or display name (absent fields
are empty strings) AND the conversation has at least one message.  The
right-hand side mentions only those three fields, so message bodies
are never consulted by the filter. -/
theorem c3_amended (f : String) (c : Chat) (msgs : List Message) (hf : f ≠ "") :
    chat_included (some f) c msgs = true ↔
      ((strIn (lowerS f) (lowerS (c.chat_identifier.getD "")) = true ∨
        strIn (lowerS f) (lowerS (c.participants.getD "")) = true ∨
        strIn (lowerS f) (lowerS (c.display_name.getD "")) = true) ∧ msgs ≠ []) := by
  simp [chat_included, chat_passes_filter, hf, List.isEmpty_iff]

/-- Witness for C3: the amended equivalence evaluated at a concrete
chat and filter. -/
theorem c3_witness :
    ("+1555" : String) ≠ "" ∧
    (chat_included (some "+1555") chat3 [msg3a] = true ↔
      ((strIn (lowerS "+1555") (lowerS (chat3.chat_identifier.getD "")) = true ∨
        strIn (lowerS "+1555") (lowerS (chat3.participants.getD "")) = true ∨
        strIn (lowerS "+1555") (lowerS (chat3.display_name.getD "")) = true) ∧
        ([msg3a] : List Message) ≠ [])) :=
  ⟨by decide, c3_amended "+1555" chat3 [msg3a] (by decide)⟩

/-- Claim C4: appending a message whose body is empty after stripping
the placeholder and whitespace, which is not a reaction and has no
attachments, emits no transcript line but still increments the
messages-rendered counter by one. -/
theorem c4_suppressed_but_counted (fmt : ℚ → String) (fs : FS)
    (attsOf : ℕ → List Attachment) (ms : List Message) (dir : List String) (m : Message)
    (h1 : pyStripS (removeORC (strOr m.text "")) = "")
    (h2 : format_reaction m.associated_message_type = none)
    (h3 : attsOf m.message_id = []) :
    (process_messages fmt fs attsOf (ms ++ [m]) dir).lines =
      (process_messages fmt fs attsOf ms dir).lines ∧
    (process_messages fmt fs attsOf (ms ++ [m]) dir).msgCount =
      (process_messages fmt fs attsOf ms dir).msgCount + 1 := by
  obtain ⟨hl, hc⟩ := process_messages_append fmt fs attsOf ms m dir
  refine ⟨?_, hc⟩
  rw [hl, h3, render_message_empty fmt fs m _ h1 h2]
  simp

/-- Witness for C4: a concrete suppressed-but-counted message. -/
theorem c4_witness :
    (pyStripS (removeORC (strOr (none : Option String) "")) = "" ∧
      format_reaction (some 0) = none) ∧
    (process_messages (fun _ => "") ⟨"", fun _ => true, fun _ _ => true⟩ (fun _ => [])
        ([] ++ [⟨9, none, some 5, true, none, some 0⟩]) []).lines =
      (process_messages (fun _ => "") ⟨"", fun _ => true, fun _ _ => true⟩ (fun _ => [])
        [] []).lines ∧
    (process_messages (fun _ => "") ⟨"", fun _ => true, fun _ _ => true⟩ (fun _ => [])
        ([] ++ [⟨9, none, some 5, true, none, some 0⟩]) []).msgCount =
      (process_messages (fun _ => "") ⟨"", fun _ => true, fun _ _ => true⟩ (fun _ => [])
        [] []).msgCount + 1 :=
  ⟨⟨by decide, by decide⟩,
    (c4_suppressed_but_counted _ _ _ [] [] _ (by decide) (by decide) rfl).1,
    (c4_suppressed_but_counted _ _ _ [] [] _ (by decide) (by decide) rfl).2⟩

/-- Claim C5: the attachment materializer returns `none` (and the
model is a total function, mirroring that the Python code never
raises) when the record has no filename, the resolved source is
missing, or the copy fails; in each failure case the message is still
rendered with a "(not available)" attachment part. -/
theorem c5_soft_fail :
    (∀ (fs : FS) (att : Attachment) (dir : List String),
      strTruthy att.filename = false → copy_attachment_file fs att dir = (none, dir)) ∧
    (∀ (fs : FS) (att : Attachment) (dir : List String),
      fs.srcExists (attachment_source_path fs att) = false →
      copy_attachment_file fs att dir = (none, dir)) ∧
    (∀ (fs : FS) (att : Attachment) (dir : List String),
      fs.copyOk (attachment_source_path fs att) (attachment_final_name fs att dir) = false →
      copy_attachment_file fs att dir = (none, dir)) ∧
    (∀ (fmt : ℚ → String) (fs : FS) (msg : Message) (att : Attachment) (dir : List String),
      format_reaction msg.associated_message_type = none →
      (copy_attachment_file fs att dir).1 = none →
      (attachment_fold fs [att] dir).1 =
        ["<attachment: " ++ strOr att.transfer_name "file" ++ " (not available)>"] ∧
      (render_message fmt fs msg [att] dir).lines.length = 1) := by
  have hfold : ∀ (fs : FS) (att : Attachment) (dir : List String),
      (copy_attachment_file fs att dir).1 = none →
      attachment_fold fs [att] dir =
        (["<attachment: " ++ strOr att.transfer_name "file" ++ " (not available)>"],
          (copy_attachment_file fs att dir).2, 0) := by
    intro fs att dir hnone
    unfold attachment_fold attachment_note_step
    simp only [List.foldl, hnone]
    simp
  refine ⟨?_, ?_, ?_, ?_⟩
  · intro fs att dir h
    unfold copy_attachment_file
    simp [h]
  · intro fs att dir h
    unfold copy_attachment_file
    by_cases h1 : strTruthy att.filename = false
    · simp [h1]
    · simp [h1, h]
  · intro fs att dir h
    unfold copy_attachment_file
    by_cases h1 : strTruthy att.filename = false
    · simp [h1]
    · by_cases h2 : fs.srcExists (attachment_source_path fs att) = false
      · simp [h1, h2]
      · simp [h1, h2, h]
  · intro fmt fs msg att dir hre hnone
    constructor
    · rw [hfold fs att dir hnone]
    · unfold render_message
      rw [hre]
      simp only [hfold fs att dir hnone]
      cases htp : text_parts (strOr msg.text "") with
      | nil => simp [htp]
      | cons a l => simp [htp]

/-- Witness for C5: the three failure modes and the transcript note at
concrete inputs. -/
theorem c5_witness :
    (strTruthy (none : Option String) = false ∧
      copy_attachment_file ⟨"/Users/u", fun _ => true, fun _ _ => true⟩ ⟨1, none, none, some "x.png", 5⟩ [] = (none, [])) ∧
    ((FS.mk "/Users/u" (fun _ => false) (fun _ _ => true)).srcExists
        (attachment_source_path ⟨"/Users/u", fun _ => false, fun _ _ => true⟩ att5) = false ∧
      copy_attachment_file ⟨"/Users/u", fun _ => false, fun _ _ => true⟩ att5 [] = (none, [])) ∧
    ((FS.mk "/Users/u" (fun _ => true) (fun _ _ => false)).copyOk
        (attachment_source_path ⟨"/Users/u", fun _ => true, fun _ _ => false⟩ att5)
        (attachment_final_name ⟨"/Users/u", fun _ => true, fun _ _ => false⟩ att5 []) = false ∧
      copy_attachment_file ⟨"/Users/u", fun _ => true, fun _ _ => false⟩ att5 [] = (none, [])) ∧
    (format_reaction (some 0) = none ∧
      (attachment_fold ⟨"/Users/u", fun _ => true, fun _ _ => false⟩ [att5] []).1 =
        ["<attachment: " ++ strOr att5.transfer_name "file" ++ " (not available)>"] ∧
      (render_message (fun _ => "T") ⟨"/Users/u", fun _ => true, fun _ _ => false⟩ msg5 [att5] []).lines.length = 1) :=
  ⟨⟨by decide, c5_soft_fail.1 ⟨"/Users/u", fun _ => true, fun _ _ => true⟩ ⟨1, none, none, some "x.png", 5⟩ [] (by decide)⟩,
   ⟨by decide, c5_soft_fail.2.1 ⟨"/Users/u", fun _ => false, fun _ _ => true⟩ att5 [] (by decide)⟩,
   ⟨by decide, c5_soft_fail.2.2.1 ⟨"/Users/u", fun _ => true, fun _ _ => false⟩ att5 [] (by decide)⟩,
   ⟨by decide,
    (c5_soft_fail.2.2.2 (fun _ => "T") ⟨"/Users/u", fun _ => true, fun _ _ => false⟩ msg5 att5 []
      (by decide) (by decide)).1,
    (c5_soft_fail.2.2.2 (fun _ => "T") ⟨"/Users/u", fun _ => true, fun _ _ => false⟩ msg5 att5 []
      (by decide) (by decide)).2⟩⟩

/-- Claim C6: on a name collision the chosen destination name is
`base_n.ext` for the least free counter `n ≥ 1`; in particular two
materializations of identically named attachments into one directory
yield two distinct files, the second with a `_1` suffix. -/
theorem c6_collision_renaming :
    (∀ (dir : List String) (dest_name : String), dest_name ∈ dir →
      ∃ n, 1 ≤ n ∧
        resolveCollision dir dest_name =
          candName (splitext dest_name).1 (splitext dest_name).2 n ∧
        candName (splitext dest_name).1 (splitext dest_name).2 n ∉ dir ∧
        (∀ m, 1 ≤ m → m < n →
          candName (splitext dest_name).1 (splitext dest_name).2 m ∈ dir)) ∧
    (copy_attachment_file fs6 att6 [] = (some "photo.jpg", ["photo.jpg"]) ∧
     copy_attachment_file fs6 att6 ["photo.jpg"] =
        (some "photo_1.jpg", ["photo_1.jpg", "photo.jpg"]) ∧
     ("photo_1.jpg" : String) ≠ "photo.jpg") := by
  constructor
  · intro dir dest_name hmem
    obtain ⟨n, hn1, hfree, hall, hloop⟩ :=
      collisionLoop_spec dir (splitext dest_name).1 (splitext dest_name).2
    refine ⟨n, hn1, ?_, hfree, hall⟩
    unfold resolveCollision
    rw [if_pos hmem]
    show (collisionLoop dir (splitext dest_name).1 (splitext dest_name).2
      (dir.length + 1) 1).getD dest_name = _
    rw [hloop]
    rfl
  · exact ⟨by decide, by decide, by decide⟩

/-- Witness for C6: the general collision statement applied to a
directory already holding `photo.jpg` and `photo_1.jpg`. -/
theorem c6_witness :
    (("photo.jpg" : String) ∈ ["photo.jpg", "photo_1.jpg"]) ∧
    (∃ n, 1 ≤ n ∧
      resolveCollision ["photo.jpg", "photo_1.jpg"] "photo.jpg" =
        candName (splitext "photo.jpg").1 (splitext "photo.jpg").2 n ∧
      candName (splitext "photo.jpg").1 (splitext "photo.jpg").2 n ∉
        ["photo.jpg", "photo_1.jpg"] ∧
      (∀ m, 1 ≤ m → m < n →
        candName (splitext "photo.jpg").1 (splitext "photo.jpg").2 m ∈
          ["photo.jpg", "photo_1.jpg"])) :=
  ⟨by decide, c6_collision_renaming.1 ["photo.jpg", "photo_1.jpg"] "photo.jpg" (by decide)⟩

/-- Counterexample to C7 as stated: in the scenario (text message,
"Liked" reaction to it, attachment-only message) the transcript has 3
rendered message lines, not 2 — the attachment-only message renders an
`<attachment: ...>` line. -/
theorem c7_counterexample :
    (process_messages fmt7 fs7 attsOf7 [msg7a, msg7b, msg7c] []).lines.length ≠ 2 := by
  decide

/-- Claim C7 as amended: the scenario produces exactly 3 rendered
lines, in ascending timestamp order, the reaction line carrying the
first message's text as its target description. -/
theorem c7_amended :
    (process_messages fmt7 fs7 attsOf7 [msg7a, msg7b, msg7c] []).lines =
      ["[T] +15551234567: hello", "[T] Me Liked hello",
       "[T] +15551234567: <attachment: photo.jpg>"] ∧
    (process_messages fmt7 fs7 attsOf7 [msg7a, msg7b, msg7c] []).lines.length = 3 ∧
    msg7a.message_date = some 100 ∧ msg7b.message_date = some 200 ∧
    msg7c.message_date = some 300 ∧ (100 : Int) < 200 ∧ (200 : Int) < 300 ∧
    msg7a.text = some "hello" ∧
    format_reaction msg7b.associated_message_type = some "Liked" ∧
    reaction_target msg7b.text = "hello" :=
  ⟨by decide, by decide, by decide, by decide, by decide, by decide, by decide,
   by decide, by decide, by decide⟩

/-- Claim C8: timestamp normalization is deterministic but not
monotonic: `1e12` maps to `1e12 + offset` while `1e12 + 1` maps to the
far smaller `(1e12 + 1)/1e9 + offset`. -/
theorem c8_not_monotonic :
    (∀ t u : Option Int, t = u →
      apple_timestamp_to_datetime t = apple_timestamp_to_datetime u) ∧
    ∃ (t1 t2 : Int) (q1 q2 : ℚ), t1 < t2 ∧ t1 ≠ 0 ∧ t2 ≠ 0 ∧
      apple_timestamp_to_datetime (some t1) = some q1 ∧
      apple_timestamp_to_datetime (some t2) = some q2 ∧ q2 < q1 := by
  refine ⟨fun t u h => by rw [h], 10 ^ 12, 10 ^ 12 + 1,
    (10 ^ 12 : ℚ) + APPLE_EPOCH_OFFSET,
    ((10 ^ 12 + 1 : ℚ)) / 10 ^ 9 + APPLE_EPOCH_OFFSET, by norm_num, by norm_num, by norm_num,
    ?_, ?_, ?_⟩
  · simp only [apple_timestamp_to_datetime]
    rw [if_neg (by norm_num), if_neg (by push_neg; push_cast; norm_num),
      if_neg (by push_neg; push_cast; norm_num)]
    push_cast
    norm_num
  · simp only [apple_timestamp_to_datetime]
    rw [if_neg (by norm_num), if_neg (by push_neg; push_cast; norm_num),
      if_pos (by push_cast; norm_num)]
    push_cast
    norm_num
  · rw [add_lt_add_iff_right]
    norm_num

/-- Witness for C8: determinism instantiated at a concrete input. -/
theorem c8_witness :
    ((some (7 : Int) : Option Int) = some 7) ∧
    apple_timestamp_to_datetime (some 7) = apple_timestamp_to_datetime (some 7) :=
  ⟨rfl, c8_not_monotonic.1 (some 7) (some 7) rfl⟩

/-- Claim C9: the filename sanitizer is idempotent. -/
theorem c9_sanitize_idem (x : String) :
    sanitize_filename (sanitize_filename x) = sanitize_filename x := by
  rcases sanitize_clean x with h | ⟨l, hne, hcl, heq⟩
  · rw [h]; decide
  · rw [heq]; exact sanitize_fixed l hne hcl

/-- Claim C10: the collision-renaming loop always terminates: for any
finite directory there is a least counter whose candidate name is
free, and the loop, run with fuel `|dir| + 1`, returns exactly that
candidate. -/
theorem c10_collision_loop_terminates (dir : List String) (base ext : String) :
    ∃ n, 1 ≤ n ∧ candName base ext n ∉ dir ∧
      (∀ m, 1 ≤ m → m < n → candName base ext m ∈ dir) ∧
      collisionLoop dir base ext (dir.length + 1) 1 = some (candName base ext n) :=
  collisionLoop_spec dir base ext

/-- Witness for C10: termination at a concrete directory. -/
theorem c10_witness :
    ∃ n, 1 ≤ n ∧ candName "photo" ".jpg" n ∉ ["photo.jpg", "photo_1.jpg"] ∧
      (∀ m, 1 ≤ m → m < n → candName "photo" ".jpg" m ∈ ["photo.jpg", "photo_1.jpg"]) ∧
      collisionLoop ["photo.jpg", "photo_1.jpg"] "photo" ".jpg"
        (["photo.jpg", "photo_1.jpg"].length + 1) 1 = some (candName "photo" ".jpg" n) :=
  c10_collision_loop_terminates ["photo.jpg", "photo_1.jpg"] "photo" ".jpg"
